import Mathlib

/-!
Verification of the CHIP-8 virtual machine core (`src/chip8.cpp`, `src/chip8.h`)
against its natural-language specification.

The machine state is embedded shallowly: every 8-bit field is a `Nat` kept
below 256 by masking at each write site exactly where the C++ code
`uint8_t` conversions truncate, every 16-bit field a `Nat` masked by 65536,
and the fixed-size arrays (`memory`, `V`, `stack`, `gfx`, `keys`) are total
functions from `Nat`, with index expressions translated verbatim from the
source (an index that the C++ code would take out of the range of the array is
simply an address beyond the modelled array, which the theorems discuss
explicitly where a claim is about bounds).
-/

/-- Machine state of the emulator, mirroring the fields of `class Chip8`
(`src/chip8.h`): 4096-byte memory, sixteen 8-bit registers `V`, 16-bit index
`I` and program counter `PC`, a 16-entry stack of 16-bit return addresses
with 8-bit stack pointer `sp`, two 8-bit timers, the 64x32 boolean display
`gfx` (row-major linear indexing, as in the source), 16 key flags, and the
`drawFlag` / `beepFlag` host-visible booleans. -/
@[ext] structure Chip8 where
  memory : Nat → Nat
  V : Nat → Nat
  I : Nat
  PC : Nat
  stack : Nat → Nat
  sp : Nat
  delay_timer : Nat
  sound_timer : Nat
  gfx : Nat → Bool
  keys : Nat → Bool
  drawFlag : Bool
  beepFlag : Bool

/-- Pointwise update of a function-represented array: `upd f a v` is the
array `f` with slot `a` overwritten by `v` (the shallow embedding of a C++
array element assignment `f[a] = v`). -/
def upd {α : Type} (f : Nat → α) (a : Nat) (v : α) : Nat → α :=
  fun b => if b = a then v else f b

/-- A loop `for (i = 0; i < count; ++i) m[base + i] = f(i);` over a
function-represented byte array, used by the font loader, by the byte copy in `loadROM`, and by the `Fx55`/`Fx65` register/memory block copies. -/
def copyBytes (m : Nat → Nat) (base : Nat) (f : Nat → Nat) (count : Nat) : Nat → Nat :=
  (List.range count).foldl (fun g i => upd g (base + i) (f i)) m

/-- The 80-byte font table written by `Chip8::initFont` (`src/chip8.cpp`
lines 15-40): sixteen 5-byte glyphs for hex digits 0-F. -/
def fontData : List Nat :=
  [0xF0, 0x90, 0x90, 0x90, 0xF0,
   0x20, 0x60, 0x20, 0x20, 0x70,
   0xF0, 0x10, 0xF0, 0x80, 0xF0,
   0xF0, 0x10, 0xF0, 0x10, 0xF0,
   0x90, 0x90, 0xF0, 0x10, 0x10,
   0xF0, 0x80, 0xF0, 0x10, 0xF0,
   0xF0, 0x80, 0xF0, 0x90, 0xF0,
   0xF0, 0x10, 0x20, 0x40, 0x40,
   0xF0, 0x90, 0xF0, 0x90, 0xF0,
   0xF0, 0x90, 0xF0, 0x10, 0xF0,
   0xF0, 0x90, 0xF0, 0x90, 0x90,
   0xE0, 0x90, 0xE0, 0x90, 0xE0,
   0xF0, 0x80, 0x80, 0x80, 0xF0,
   0xE0, 0x90, 0x90, 0x90, 0xE0,
   0xF0, 0x80, 0xF0, 0x80, 0xF0,
   0xF0, 0x80, 0xF0, 0x80, 0x80]

/-- Translation of `Chip8::initFont`: write the 80 font bytes into memory at `0x050 + i`
(`src/chip8.cpp` lines 36-39). -/
def initFontMem (m : Nat → Nat) : Nat → Nat :=
  copyBytes m 0x050 (fun i => fontData.getD i 0) 80

/-- Translation of `Chip8::reset` (`src/chip8.cpp` lines 298-316): zero memory, registers,
display, keys and stack, set `PC = 0x200`, `sp = 0`, both timers 0, clear
both flags, then reload the font.  The result does not depend on the prior
state. -/
def reset (_s : Chip8) : Chip8 :=
  { memory := initFontMem (fun _ => 0)
    V := fun _ => 0
    I := 0
    PC := 0x200
    stack := fun _ => 0
    sp := 0
    delay_timer := 0
    sound_timer := 0
    gfx := fun _ => false
    keys := fun _ => false
    drawFlag := false
    beepFlag := false }

/-- Translation of `Chip8::loadROM` (`src/chip8.cpp` lines 42-58), taken at the point where
the file bytes have been read successfully (the `file.is_open()` failure is
a host-side `SourceUnavailable` concern and carries no emulation logic): the
machine is reset first, then if the image is larger than `4096 - 0x200`
bytes the load fails (`false`) having copied nothing, otherwise the bytes
are copied to memory starting at `0x200` and the load succeeds (`true`).
The returned state is the machine state after the call, success or not. -/
def loadROM (s : Chip8) (rom : List Nat) : Bool × Chip8 :=
  let s0 := reset s
  if rom.length > 4096 - 0x200 then (false, s0)
  else (true, { s0 with memory := copyBytes s0.memory 0x200 (fun i => rom.getD i 0) rom.length })

/-- One sprite bit landing at linear display index `idx` (`src/chip8.cpp`
lines 191-197): if `idx < 64*32` the pixel is XORed, with the running
collision flag `vf` set to 1 when the pixel was already lit; otherwise
nothing happens. -/
def drawBit (g : Nat → Bool) (vf : Nat) (idx : Nat) : (Nat → Bool) × Nat :=
  if idx < 64 * 32 then (upd g idx (!g idx), if g idx then 1 else vf)
  else (g, vf)

/-- The `Dxyn` draw handler (`src/chip8.cpp` lines 179-202): `V[0xF]` is
zeroed first, the origin `(V[x] % 64, V[y] % 32)` is read afterwards, then
for each of the `n` sprite rows (byte `memory[I + row]`) and each of the 8
columns, a set bit is drawn at linear index `(vy + row) * 64 + (vx + col)`
via `drawBit`; finally the collision flag is stored back into `V[0xF]` and
`drawFlag` is raised. -/
def execDraw (s : Chip8) (x y n : Nat) : Chip8 :=
  let V0 := upd s.V 0xF 0
  let vx := V0 x % 64
  let vy := V0 y % 32
  let p := (List.range n).foldl
    (fun q row =>
      (List.range 8).foldl
        (fun r col =>
          if s.memory (s.I + row) &&& (0x80 >>> col) ≠ 0 then
            drawBit r.1 r.2 ((vy + row) * 64 + (vx + col))
          else r)
        q)
    (s.gfx, 0)
  { s with V := upd V0 0xF p.2, gfx := p.1, drawFlag := true }

/-- The key scan of `Fx0A` (`src/chip8.cpp` lines 224-232) generalized to a
scan of the first `m` keys: fold over indices `0..m-1`, recording each
pressed index into register `x` (so the last, i.e. highest, pressed index
wins) and flagging that some key was pressed.  The opcode uses `m = 16`. -/
def keyScanAux (keys : Nat → Bool) (V : Nat → Nat) (x m : Nat) : (Nat → Nat) × Bool :=
  (List.range m).foldl (fun q i => if keys i then (upd q.1 x i, true) else q) (V, false)

/-- The decode-and-execute switch of `Chip8::emulateCycle` (`src/chip8.cpp`
lines 73-279).  `s` is the state after the fetch already advanced `PC` by 2;
`opcode` is the fetched word and `x`, `y`, `n`, `nn`, `nnn` its decoded
fields (passed in by `emulateCycle` exactly as the source computes them).
`rand` models the draw of the process-wide PRNG used only by `Cxnn`
(`dist(gen)`, a uint8 value): the one nondeterministic input of a cycle.
Every 8-bit write masks with `% 256` or `&&& 0xFF` exactly where the C++
`uint8_t` conversion truncates, and every 16-bit write with `% 65536`. -/
def exec (s : Chip8) (rand opcode x y n nn nnn : Nat) : Chip8 :=
  if opcode &&& 0xF000 = 0x0000 then
    if opcode = 0x00E0 then { s with gfx := fun _ => false, drawFlag := true }
    else if opcode = 0x00EE then
      { s with sp := (s.sp + 255) % 256, PC := s.stack ((s.sp + 255) % 256) }
    else s
  else if opcode &&& 0xF000 = 0x1000 then { s with PC := nnn }
  else if opcode &&& 0xF000 = 0x2000 then
    { s with stack := upd s.stack s.sp s.PC, sp := (s.sp + 1) % 256, PC := nnn }
  else if opcode &&& 0xF000 = 0x3000 then
    if s.V x = nn then { s with PC := (s.PC + 2) % 65536 } else s
  else if opcode &&& 0xF000 = 0x4000 then
    if s.V x ≠ nn then { s with PC := (s.PC + 2) % 65536 } else s
  else if opcode &&& 0xF000 = 0x5000 then
    if s.V x = s.V y then { s with PC := (s.PC + 2) % 65536 } else s
  else if opcode &&& 0xF000 = 0x6000 then { s with V := upd s.V x nn }
  else if opcode &&& 0xF000 = 0x7000 then { s with V := upd s.V x ((s.V x + nn) % 256) }
  else if opcode &&& 0xF000 = 0x8000 then
    if n = 0x0 then { s with V := upd s.V x (s.V y) }
    else if n = 0x1 then { s with V := upd s.V x (s.V x ||| s.V y) }
    else if n = 0x2 then { s with V := upd s.V x (s.V x &&& s.V y) }
    else if n = 0x3 then { s with V := upd s.V x (s.V x ^^^ s.V y) }
    else if n = 0x4 then
      { s with V := upd (upd s.V x ((s.V x + s.V y) &&& 0xFF)) 0xF
                        (if s.V x + s.V y > 0xFF then 1 else 0) }
    else if n = 0x5 then
      let V1 := upd s.V 0xF (if s.V x ≥ s.V y then 1 else 0)
      { s with V := upd V1 x ((V1 x + 256 - V1 y) % 256) }
    else if n = 0x6 then
      let V1 := upd s.V 0xF (s.V x &&& 0x01)
      { s with V := upd V1 x (V1 x >>> 1) }
    else if n = 0x7 then
      let V1 := upd s.V 0xF (if s.V y ≥ s.V x then 1 else 0)
      { s with V := upd V1 x ((V1 y + 256 - V1 x) % 256) }
    else if n = 0xE then
      let V1 := upd s.V 0xF ((s.V x >>> 7) &&& 0x01)
      { s with V := upd V1 x ((V1 x <<< 1) % 256) }
    else s
  else if opcode &&& 0xF000 = 0x9000 then
    if s.V x ≠ s.V y then { s with PC := (s.PC + 2) % 65536 } else s
  else if opcode &&& 0xF000 = 0xA000 then { s with I := nnn }
  else if opcode &&& 0xF000 = 0xB000 then { s with PC := (nnn + s.V 0) % 65536 }
  else if opcode &&& 0xF000 = 0xC000 then { s with V := upd s.V x ((rand % 256) &&& nn) }
  else if opcode &&& 0xF000 = 0xD000 then execDraw s x y n
  else if opcode &&& 0xF000 = 0xE000 then
    if nn = 0x9E then
      if s.keys (s.V x) then { s with PC := (s.PC + 2) % 65536 } else s
    else if nn = 0xA1 then
      if s.keys (s.V x) then s else { s with PC := (s.PC + 2) % 65536 }
    else s
  else if opcode &&& 0xF000 = 0xF000 then
    if nn = 0x07 then { s with V := upd s.V x s.delay_timer }
    else if nn = 0x0A then
      let p := keyScanAux s.keys s.V x 16
      if p.2 then { s with V := p.1 }
      else { s with V := p.1, PC := (s.PC + 65534) % 65536 }
    else if nn = 0x15 then { s with delay_timer := s.V x }
    else if nn = 0x18 then { s with sound_timer := s.V x }
    else if nn = 0x1E then { s with I := (s.I + s.V x) % 65536 }
    else if nn = 0x29 then { s with I := 0x050 + (s.V x &&& 0x0F) * 5 }
    else if nn = 0x33 then
      { s with memory := upd (upd (upd s.memory s.I (s.V x / 100))
                                  (s.I + 1) (s.V x / 10 % 10))
                             (s.I + 2) (s.V x % 10) }
    else if nn = 0x55 then
      { s with memory := copyBytes s.memory s.I s.V (x + 1), I := (s.I + x + 1) % 65536 }
    else if nn = 0x65 then
      { s with V := copyBytes s.V 0 (fun i => s.memory (s.I + i)) (x + 1)
               I := (s.I + x + 1) % 65536 }
    else s
  else s

/-- Translation of `Chip8::emulateCycle` (`src/chip8.cpp` lines 60-280): fetch the big-endian
opcode `memory[PC] << 8 | memory[PC+1]`, advance `PC` by 2, decode the five
fields by masking exactly as lines 67-71 do, and execute. -/
def emulateCycle (s : Chip8) (rand : Nat) : Chip8 :=
  exec { s with PC := (s.PC + 2) % 65536 } rand
    ((s.memory s.PC <<< 8) ||| s.memory (s.PC + 1))
    ((((s.memory s.PC <<< 8) ||| s.memory (s.PC + 1)) &&& 0x0F00) >>> 8)
    ((((s.memory s.PC <<< 8) ||| s.memory (s.PC + 1)) &&& 0x00F0) >>> 4)
    (((s.memory s.PC <<< 8) ||| s.memory (s.PC + 1)) &&& 0x000F)
    (((s.memory s.PC <<< 8) ||| s.memory (s.PC + 1)) &&& 0x00FF)
    (((s.memory s.PC <<< 8) ||| s.memory (s.PC + 1)) &&& 0x0FFF)

/-- Translation of `Chip8::decrementTimers` (`src/chip8.cpp` lines 282-296): decrement the
delay timer if positive; then if the sound timer is positive decrement it
and set `beepFlag`, otherwise clear `beepFlag`. -/
def decrementTimers (s : Chip8) : Chip8 :=
  let s1 := if s.delay_timer > 0 then { s with delay_timer := s.delay_timer - 1 } else s
  if s1.sound_timer > 0 then
    { s1 with sound_timer := s1.sound_timer - 1, beepFlag := true }
  else
    { s1 with beepFlag := false }

/-- Iterated external timer ticks: `N` consecutive (`decrementTimers` calls) with no
intervening opcode. -/
def ticksN : Nat → Chip8 → Chip8
  | 0, s => s
  | m + 1, s => ticksN m (decrementTimers s)

/-- A fully zeroed machine state used as the base of the concrete test
states below (functions all constant, `PC = 0x200` as after reset). -/
def zeroState : Chip8 :=
  { memory := fun _ => 0
    V := fun _ => 0
    I := 0
    PC := 0x200
    stack := fun _ => 0
    sp := 0
    delay_timer := 0
    sound_timer := 0
    gfx := fun _ => false
    keys := fun _ => false
    drawFlag := false
    beepFlag := false }

/-- Concrete state for the draw-clipping analysis: `V0 = 63`, `V1 = 0`,
`I = 0`, `memory[0] = 0x01` (a sprite row whose only set bit is the
rightmost column, column 7), empty display. -/
def c1State : Chip8 :=
  { zeroState with V := upd zeroState.V 0 63, memory := upd zeroState.memory 0 1 }

/-- Concrete state with sound timer 1 for the sound-flag analysis. -/
def c2State : Chip8 := { zeroState with sound_timer := 1 }

/-- Concrete state with `V0 = 5` for the `Fx18` sound-flag analysis. -/
def c2FxState : Chip8 := { zeroState with V := upd zeroState.V 0 5 }

/-- Concrete state with `VF = 5`, `V0 = 3` for the `8xy4` x = 0xF analysis. -/
def c3State : Chip8 := { zeroState with V := upd (upd zeroState.V 0xF 5) 0 3 }

/-- Concrete state with `V1 = 200`, `V2 = 100` for the `8xy4` witness. -/
def c3WitState : Chip8 := { zeroState with V := upd (upd zeroState.V 1 200) 2 100 }

/-- Concrete state with `V0 = 10`, `VF = 3` for the `8xy5` y = 0xF analysis. -/
def c4State : Chip8 := { zeroState with V := upd (upd zeroState.V 0 10) 0xF 3 }

/-- Concrete state with `V3 = 10`, `V4 = 2` for the `8xy5` witness. -/
def c4WitState : Chip8 := { zeroState with V := upd (upd zeroState.V 3 10) 4 2 }

/-- Concrete state whose next instruction is `F50A` and whose only pressed
key is index 7, for the `Fx0A` witness. -/
def c5WitState : Chip8 :=
  { zeroState with
    memory := upd (upd zeroState.memory 0x200 0xF5) 0x201 0x0A
    keys := fun i => decide (i = 7) }

/-- Concrete state with `I = 100` and `V0, V1, V2 = 11, 22, 33`, for the
`Fx55` witness. -/
def c7WitState : Chip8 :=
  { zeroState with I := 100, V := upd (upd (upd zeroState.V 0 11) 1 22) 2 33 }

/-- Concrete state whose next instruction is `2345` (call), for the stack
witness. -/
def c9CallState : Chip8 :=
  { zeroState with memory := upd (upd zeroState.memory 0x200 0x23) 0x201 0x45 }

/-- Concrete state whose next instruction is `00EE` (return) with one frame
on the stack, for the stack witness. -/
def c9RetState : Chip8 :=
  { zeroState with
    sp := 1
    stack := upd zeroState.stack 0 0x321
    memory := upd (upd zeroState.memory 0x200 0x00) 0x201 0xEE }

/-! ## Helper lemmas -/

theorem upd_same {α : Type} (f : Nat → α) (a : Nat) (v : α) : upd f a v a = v := by
  simp [upd]

theorem upd_ne {α : Type} (f : Nat → α) (a b : Nat) (v : α) (h : b ≠ a) :
    upd f a v b = f b := by
  simp [upd, h]

theorem upd_upd_same {α : Type} (f : Nat → α) (a : Nat) (v w : α) :
    upd (upd f a v) a w = upd f a w := by
  funext b
  by_cases h : b = a <;> simp [upd, h]

theorem and255_eq_mod (a : Nat) : a &&& 0xFF = a % 256 := by
  have h8 := Nat.and_pow_two_sub_one_eq_mod a 8
  norm_num at h8
  exact h8

theorem copyBytes_succ (m : Nat → Nat) (base : Nat) (f : Nat → Nat) (k : Nat) :
    copyBytes m base f (k + 1) = upd (copyBytes m base f k) (base + k) (f k) := by
  simp [copyBytes, List.range_succ]

theorem copyBytes_out (m : Nat → Nat) (base : Nat) (f : Nat → Nat) (count a : Nat)
    (h : ∀ i, i < count → base + i ≠ a) :
    copyBytes m base f count a = m a := by
  induction count with
  | zero => simp [copyBytes]
  | succ k ih =>
      rw [copyBytes_succ, upd_ne _ _ _ _ (Ne.symm (h k (by omega)))]
      exact ih (fun i hi => h i (by omega))

theorem copyBytes_in (m : Nat → Nat) (base : Nat) (f : Nat → Nat) (count i : Nat)
    (h : i < count) :
    copyBytes m base f count (base + i) = f i := by
  induction count with
  | zero => omega
  | succ k ih =>
      rw [copyBytes_succ]
      by_cases hik : i = k
      · subst hik
        exact upd_same _ _ _
      · have hne : base + i ≠ base + k := by omega
        rw [upd_ne _ _ _ _ hne]
        exact ih (by omega)

theorem reset_memory_high (s : Chip8) (a : Nat) (h : 0x200 ≤ a) :
    (reset s).memory a = 0 := by
  show initFontMem (fun _ => 0) a = 0
  unfold initFontMem
  rw [copyBytes_out]
  intro i hi
  omega

theorem decrementTimers_delay (s : Chip8) :
    (decrementTimers s).delay_timer = s.delay_timer - 1 := by
  by_cases hd : s.delay_timer > 0 <;> by_cases hs : s.sound_timer > 0 <;>
    simp [decrementTimers, hd, hs] <;> omega

theorem decrementTimers_sound (s : Chip8) :
    (decrementTimers s).sound_timer = s.sound_timer - 1 := by
  by_cases hd : s.delay_timer > 0 <;> by_cases hs : s.sound_timer > 0 <;>
    simp [decrementTimers, hd, hs] <;> omega

theorem decrementTimers_beep (s : Chip8) :
    (decrementTimers s).beepFlag = decide (0 < s.sound_timer) := by
  by_cases hd : s.delay_timer > 0 <;> by_cases hs : s.sound_timer > 0 <;>
    simp [decrementTimers, hd, hs]

theorem ticksN_delay (N : Nat) (s : Chip8) :
    (ticksN N s).delay_timer = s.delay_timer - N := by
  induction N generalizing s with
  | zero => simp [ticksN]
  | succ m ih =>
      show (ticksN m (decrementTimers s)).delay_timer = s.delay_timer - (m + 1)
      rw [ih, decrementTimers_delay]
      omega

theorem ticksN_sound (N : Nat) (s : Chip8) :
    (ticksN N s).sound_timer = s.sound_timer - N := by
  induction N generalizing s with
  | zero => simp [ticksN]
  | succ m ih =>
      show (ticksN m (decrementTimers s)).sound_timer = s.sound_timer - (m + 1)
      rw [ih, decrementTimers_sound]
      omega

/-! ## Claim theorems -/

/-- C1 (code-bug evidence): the draw handler does not clip a set sprite bit
whose target x-coordinate overflows the 64-pixel row.  In `c1State` the
only set bit of the sprite targets coordinate `(63 + 7, 0)`, which lies outside
the 64-wide display, so by the claim no pixel may change; but the code only
bounds the linear index `(vy + row) * 64 + (vx + col)` by `64 * 32`, so the
bit lands at index 70 = row 1, column 6: the pixel wraps into the next row
instead of being dropped. -/
theorem C1_draw_horizontal_wrap :
    64 ≤ 63 + 7 ∧
    c1State.gfx (1 * 64 + 6) = false ∧
    (execDraw c1State 0 1 1).gfx (1 * 64 + 6) = true := by
  decide

/-- C2 counterexample: the sound-active flag does not equal
`sound counter > 0` on the resulting state after every operation that can
change either.  A tick from sound timer 1 leaves the counter at 0 with the
flag raised, and `Fx18` (here loading `V0 = 5` into the sound timer with the
flag low) does not touch the flag at all. -/
theorem C2_beep_not_counter_pos :
    (decrementTimers c2State).sound_timer = 0 ∧
    (decrementTimers c2State).beepFlag = true ∧
    (exec c2FxState 0 0xF018 0 1 8 0x18 0x018).sound_timer = 5 ∧
    (exec c2FxState 0 0xF018 0 1 8 0x18 0x018).beepFlag = false := by
  decide

/-- C2 (amended): after a tick the sound-active flag equals the predicate
`sound counter > 0` evaluated on the state *before* the tick (equivalently,
the flag records whether this tick decremented the counter); after reset the
flag is false and the counter zero, so the claimed equality holds there; the
`Fx18` opcode stores `Vx` into the sound counter but leaves the flag
entirely unchanged, so the equality can fail between an `Fx18` and the next
tick. -/
theorem C2_beep_flag_semantics :
    (∀ s : Chip8, (decrementTimers s).beepFlag = decide (0 < s.sound_timer)) ∧
    (∀ s : Chip8, (reset s).beepFlag = false ∧ (reset s).sound_timer = 0) ∧
    (∀ (s : Chip8) (r op x y n nnn : Nat), op &&& 0xF000 = 0xF000 →
      (exec s r op x y n 0x18 nnn).beepFlag = s.beepFlag ∧
      (exec s r op x y n 0x18 nnn).sound_timer = s.V x) := by
  refine ⟨fun s => decrementTimers_beep s, fun s => ⟨rfl, rfl⟩, ?_⟩
  intro s r op x y n nnn hop
  simp [exec, hop]

/-- C2 witness: the amended `Fx18` clause at a concrete state. -/
theorem C2_beep_flag_semantics_witness :
    (exec zeroState 0 0xF118 1 1 8 0x118 0x118).beepFlag = zeroState.beepFlag ∧
    (exec zeroState 0 0xF118 1 1 8 0x118 0x118).sound_timer = zeroState.V 1 :=
  C2_beep_flag_semantics.2.2 zeroState 0 0xF118 1 1 8 0x118 (by decide)

/-- C8: after `N` ticks the delay timer reads `max(D − N, 0)` (which is
exactly truncated `Nat` subtraction `D - N`), and likewise for the sound
counter; a single tick decrements each positive counter by exactly 1 and
leaves a zero counter at zero (again truncated subtraction by 1). -/
theorem C8_timer_ticks (s : Chip8) (N : Nat) :
    (ticksN N s).delay_timer = s.delay_timer - N ∧
    (ticksN N s).sound_timer = s.sound_timer - N ∧
    (decrementTimers s).delay_timer = s.delay_timer - 1 ∧
    (decrementTimers s).sound_timer = s.sound_timer - 1 :=
  ⟨ticksN_delay N s, ticksN_sound N s, decrementTimers_delay s, decrementTimers_sound s⟩

/-- C10: the draw handler zeroes `VF` before reading the origin registers,
so when the register selector `x` (or `y`) is `0xF` the origin taken from
that register is 0 and the pre-instruction contents of `VF` never influence
the draw: executing the draw from a state whose `VF` was overwritten with an
arbitrary byte `b` produces exactly the same state as from the original. -/
theorem C10_draw_vf_zeroed_first (s : Chip8) (y n b : Nat) :
    execDraw { s with V := upd s.V 0xF b } 0xF y n = execDraw s 0xF y n ∧
    execDraw { s with V := upd s.V 0xF b } y 0xF n = execDraw s y 0xF n := by
  have h : upd (upd s.V 0xF b) 0xF 0 = upd s.V 0xF 0 := upd_upd_same s.V 0xF b 0
  constructor <;> simp [execDraw, h]

/-- C3 counterexample: with `x = 0xF` (allowed by the claim), `8xy4` does
not leave `Vx` holding the sum mod 256.  In `c3State` (`VF = 5`, `V0 = 3`)
the opcode `8F04` leaves `VF = 0` (the carry flag, written after the sum),
not `(5 + 3) % 256 = 8`. -/
theorem C3_add_carry_x15 :
    (exec c3State 0 0x8F04 0xF 0 4 0x04 0xF04).V 0xF ≠
      (c3State.V 0xF + c3State.V 0) % 256 := by
  decide

/-- C3 (amended): for every register pair, `8xy4` leaves `VF = 1` iff the
unsigned sum of the pre-instruction `Vx` and `Vy` exceeds 255 — this part
holds even for `x = 0xF`; and for `x ≠ 0xF` it leaves `Vx` holding the sum
mod 256 (when `x = 0xF` the carry flag, written second, overwrites the
wrapped sum).  All other registers are unchanged. -/
theorem C3_add_with_carry (s : Chip8) (r op x y nn nnn : Nat)
    (hx : x < 16) (hy : y < 16) (hop : op &&& 0xF000 = 0x8000) :
    (exec s r op x y 4 nn nnn).V 0xF = (if 255 < s.V x + s.V y then 1 else 0) ∧
    (x ≠ 0xF → (exec s r op x y 4 nn nnn).V x = (s.V x + s.V y) % 256) ∧
    (∀ j, j ≠ x → j ≠ 0xF → (exec s r op x y 4 nn nnn).V j = s.V j) := by
  have hbranch : exec s r op x y 4 nn nnn =
      { s with V := upd (upd s.V x ((s.V x + s.V y) &&& 0xFF)) 0xF
                        (if s.V x + s.V y > 0xFF then 1 else 0) } := by
    simp [exec, hop]
  rw [hbranch]
  dsimp only
  refine ⟨?_, ?_, ?_⟩
  · rw [upd_same]
  · intro hx15
    rw [upd_ne _ _ _ _ hx15, upd_same, and255_eq_mod]
  · intro j hjx hj15
    rw [upd_ne _ _ _ _ hj15, upd_ne _ _ _ _ hjx]

/-- C3 witness: the amended claim at `x = 1`, `y = 2`, `V1 = 200`,
`V2 = 100` (sum 300 carries and wraps to 44). -/
theorem C3_add_with_carry_witness :
    (exec c3WitState 0 0x8124 1 2 4 0x24 0x124).V 0xF =
      (if 255 < c3WitState.V 1 + c3WitState.V 2 then 1 else 0) ∧
    (exec c3WitState 0 0x8124 1 2 4 0x24 0x124).V 1 =
      (c3WitState.V 1 + c3WitState.V 2) % 256 :=
  ⟨(C3_add_with_carry c3WitState 0 0x8124 1 2 0x24 0x124 (by decide) (by decide)
      (by decide)).1,
   (C3_add_with_carry c3WitState 0 0x8124 1 2 0x24 0x124 (by decide) (by decide)
      (by decide)).2.1 (by decide)⟩

/-- C4 counterexample: with `y = 0xF` (allowed by the claim), `8xy5` does
not leave `Vx` holding `(Vx − Vy) mod 256` computed from pre-instruction
values.  In `c4State` (`V0 = 10`, `VF = 3`) the opcode `80F5` first writes
the borrow flag 1 into `VF` and only then subtracts, so `V0` becomes
`10 − 1 = 9`, not `(10 − 3) mod 256 = 7`. -/
theorem C4_sub_borrow_y15 :
    (exec c4State 0 0x80F5 0 0xF 5 0xF5 0x0F5).V 0 ≠
      (c4State.V 0 + 256 - c4State.V 0xF) % 256 := by
  decide

/-- C4 (amended): `8xy5` writes the borrow flag `(1 iff Vx ≥ Vy, from
pre-instruction values)` into `VF` first and subtracts afterwards on the
updated register file, so: for `x ≠ 0xF` and `y ≠ 0xF` the claim holds as
stated (`VF` = flag, `Vx = (Vx + 256 − Vy) % 256`, the 8-bit wrap of
`Vx − Vy`); for `y = 0xF`, `x ≠ 0xF` the flag is still correct but the
subtrahend read is the freshly written flag, so `Vx = (Vx + 256 − flag) %
256`; for `x = 0xF`, `y ≠ 0xF` the flag itself is decremented, leaving
`VF = (flag + 256 − Vy) % 256`; and for `x = y = 0xF` the final `VF` is 0. -/
theorem C4_sub_with_borrow (s : Chip8) (r op x y nn nnn : Nat)
    (hx : x < 16) (hy : y < 16) (hop : op &&& 0xF000 = 0x8000) :
    (x ≠ 0xF → y ≠ 0xF →
      (exec s r op x y 5 nn nnn).V 0xF = (if s.V y ≤ s.V x then 1 else 0) ∧
      (exec s r op x y 5 nn nnn).V x = (s.V x + 256 - s.V y) % 256) ∧
    (x ≠ 0xF → y = 0xF →
      (exec s r op x y 5 nn nnn).V 0xF = (if s.V y ≤ s.V x then 1 else 0) ∧
      (exec s r op x y 5 nn nnn).V x =
        (s.V x + 256 - (if s.V y ≤ s.V x then 1 else 0)) % 256) ∧
    (x = 0xF → y ≠ 0xF →
      (exec s r op x y 5 nn nnn).V 0xF =
        ((if s.V y ≤ s.V x then 1 else 0) + 256 - s.V y) % 256) ∧
    (x = 0xF → y = 0xF → (exec s r op x y 5 nn nnn).V 0xF = 0) := by
  have hbranch : exec s r op x y 5 nn nnn =
      { s with V := upd (upd s.V 0xF (if s.V x ≥ s.V y then 1 else 0)) x
                        ((upd s.V 0xF (if s.V x ≥ s.V y then 1 else 0) x + 256 -
                          upd s.V 0xF (if s.V x ≥ s.V y then 1 else 0) y) % 256) } := by
    simp [exec, hop]
  rw [hbranch]
  dsimp only
  have hwrap : ∀ c : Nat, (c + 256 - c) % 256 = 0 := fun c => by omega
  refine ⟨?_, ?_, ?_, ?_⟩
  · intro hx15 hy15
    constructor
    · rw [upd_ne _ _ _ _ (Ne.symm hx15), upd_same]
    · rw [upd_same, upd_ne _ _ _ _ hx15, upd_ne _ _ _ _ hy15]
  · intro hx15 hy15
    subst hy15
    constructor
    · rw [upd_ne _ _ _ _ (Ne.symm hx15), upd_same]
    · rw [upd_same, upd_ne _ _ _ _ hx15, upd_same]
  · intro hx15 hy15
    subst hx15
    rw [upd_same, upd_same, upd_ne _ _ _ _ hy15]
  · intro hx15 hy15
    subst hx15
    subst hy15
    rw [upd_same, upd_same, hwrap]

/-- C4 witness: the main clause of the amended claim at `x = 3`, `y = 4`,
`V3 = 10`, `V4 = 2`. -/
theorem C4_sub_with_borrow_witness :
    (exec c4WitState 0 0x8345 3 4 5 0x45 0x345).V 0xF =
      (if c4WitState.V 4 ≤ c4WitState.V 3 then 1 else 0) ∧
    (exec c4WitState 0 0x8345 3 4 5 0x45 0x345).V 3 =
      (c4WitState.V 3 + 256 - c4WitState.V 4) % 256 :=
  (C4_sub_with_borrow c4WitState 0 0x8345 3 4 0x45 0x345 (by decide) (by decide)
      (by decide)).1 (by decide) (by decide)

/-- C6: loading succeeds iff the image length is at most `3584 = 4096 −
0x200` bytes.  On success `PC = 0x200` and every memory address at or above
`0x200 + length` still holds its zeroed post-reset value (the font occupies
only `0x050..0x09F`); on failure the machine is exactly the reset state, so
not a single byte of the image was copied. -/
theorem C6_load_bounds (s : Chip8) (rom : List Nat) :
    ((loadROM s rom).1 = true ↔ rom.length ≤ 3584) ∧
    (rom.length ≤ 3584 →
      (loadROM s rom).2.PC = 0x200 ∧
      ∀ a, 0x200 + rom.length ≤ a → (loadROM s rom).2.memory a = 0) ∧
    (3584 < rom.length → (loadROM s rom).2 = reset s) := by
  by_cases h : rom.length > 4096 - 0x200
  · have hfail : loadROM s rom = (false, reset s) := by
      simp [loadROM, h]
    rw [hfail]
    refine ⟨by simp; omega, ?_, fun _ => rfl⟩
    intro hle
    omega
  · have hok : loadROM s rom =
        (true, { reset s with
                 memory := copyBytes (reset s).memory 0x200 (fun i => rom.getD i 0)
                             rom.length }) := by
      simp [loadROM, h]
    rw [hok]
    refine ⟨by simp; omega, ?_, ?_⟩
    · intro _
      refine ⟨rfl, ?_⟩
      intro a ha
      dsimp only
      rw [copyBytes_out _ _ _ _ _ (fun i hi => by omega)]
      exact reset_memory_high s a (by omega)
    · intro hgt
      omega

/-- C6 witness: an image of exactly 3584 bytes loads, one of 3585 bytes does
not, and after loading a 2-byte image the memory just past it is zero. -/
theorem C6_load_bounds_witness :
    (loadROM zeroState (List.replicate 3584 1)).1 = true ∧
    ¬ (loadROM zeroState (List.replicate 3585 1)).1 = true ∧
    (loadROM zeroState [0xAA, 0xBB]).2.memory 0x202 = 0 :=
  ⟨(C6_load_bounds zeroState (List.replicate 3584 1)).1.mpr
     (by rw [List.length_replicate]),
   fun h => by
     have h2 := (C6_load_bounds zeroState (List.replicate 3585 1)).1.mp h
     rw [List.length_replicate] at h2
     omega,
   ((C6_load_bounds zeroState [0xAA, 0xBB]).2.1 (by decide)).2 0x202 (by decide)⟩

/-- C7: `Fx55` copies `V0..Vx` into memory at `I..I+x`, leaves every other
memory address and the whole register file unchanged, and leaves `I` equal
to its pre-instruction value plus `x + 1` (the in-range hypothesis
`I + x ≤ 4095` keeps the writes inside memory and rules out 16-bit wrap of
`I`). -/
theorem C7_store_registers (s : Chip8) (r op x y n nnn : Nat)
    (hx : x < 16) (hI : s.I + x ≤ 4095) (hop : op &&& 0xF000 = 0xF000) :
    (∀ i, i ≤ x → (exec s r op x y n 0x55 nnn).memory (s.I + i) = s.V i) ∧
    (∀ a, (∀ i, i ≤ x → s.I + i ≠ a) → (exec s r op x y n 0x55 nnn).memory a = s.memory a) ∧
    (∀ j, (exec s r op x y n 0x55 nnn).V j = s.V j) ∧
    (exec s r op x y n 0x55 nnn).I = s.I + (x + 1) := by
  have hbranch : exec s r op x y n 0x55 nnn =
      { s with memory := copyBytes s.memory s.I s.V (x + 1), I := (s.I + x + 1) % 65536 } := by
    simp [exec, hop]
  rw [hbranch]
  dsimp only
  refine ⟨?_, ?_, fun j => rfl, ?_⟩
  · intro i hi
    exact copyBytes_in _ _ _ _ _ (by omega)
  · intro a ha
    exact copyBytes_out _ _ _ _ _ (fun i hi => ha i (by omega))
  · have : s.I + x + 1 < 65536 := by omega
    omega

/-- C7 witness: with `x = 2`, `I = 100` and `V0..V2 = 11, 22, 33`, memory
slot `I + 2` receives `V2` and `I` ends at `I + 3`. -/
theorem C7_store_registers_witness :
    (exec c7WitState 0 0xF255 2 5 5 0x55 0x255).memory (c7WitState.I + 2) = c7WitState.V 2 ∧
    (exec c7WitState 0 0xF255 2 5 5 0x55 0x255).I = c7WitState.I + (2 + 1) :=
  ⟨(C7_store_registers c7WitState 0 0xF255 2 5 5 0x255 (by decide) (by decide)
      (by decide)).1 2 (by decide),
   (C7_store_registers c7WitState 0 0xF255 2 5 5 0x255 (by decide) (by decide)
      (by decide)).2.2.2⟩

theorem keyScanAux_succ (keys : Nat → Bool) (V : Nat → Nat) (x m : Nat) :
    keyScanAux keys V x (m + 1) =
      if keys m then (upd (keyScanAux keys V x m).1 x m, true)
      else keyScanAux keys V x m := by
  simp [keyScanAux, List.range_succ]

theorem keyScanAux_none (keys : Nat → Bool) (V : Nat → Nat) (x m : Nat)
    (h : ∀ i, i < m → keys i = false) :
    keyScanAux keys V x m = (V, false) := by
  induction m with
  | zero => simp [keyScanAux]
  | succ k ih =>
      rw [keyScanAux_succ, h k (by omega)]
      simp only [Bool.false_eq_true, if_false]
      exact ih (fun i hi => h i (by omega))

theorem keyScanAux_fst_ne (keys : Nat → Bool) (V : Nat → Nat) (x m a : Nat)
    (h : a ≠ x) :
    (keyScanAux keys V x m).1 a = V a := by
  induction m with
  | zero => simp [keyScanAux]
  | succ k ih =>
      rw [keyScanAux_succ]
      by_cases hk : keys k
      · simp only [hk, if_true]
        rw [upd_ne _ _ _ _ h]
        exact ih
      · simp only [hk, Bool.false_eq_true, if_false]
        exact ih

theorem keyScanAux_high (keys : Nat → Bool) (V : Nat → Nat) (x m k : Nat)
    (hk : k < m) (hkey : keys k = true)
    (hhigh : ∀ j, k < j → j < m → keys j = false) :
    keyScanAux keys V x m = (upd V x k, true) := by
  induction m with
  | zero => omega
  | succ l ih =>
      rw [keyScanAux_succ]
      by_cases hkl : k = l
      · subst hkl
        rw [hkey]
        simp only [if_true]
        have hfst : upd (keyScanAux keys V x k).1 x k = upd V x k := by
          funext a
          by_cases ha : a = x
          · subst ha
            rw [upd_same, upd_same]
          · rw [upd_ne _ _ _ _ ha, upd_ne _ _ _ _ ha]
            exact keyScanAux_fst_ne keys V x k a ha
        rw [hfst]
      · rw [hhigh l (by omega) (by omega)]
        simp only [Bool.false_eq_true, if_false]
        exact ih (by omega) (fun j hj hjl => hhigh j hj (by omega))

theorem exec_fx0a (s : Chip8) (r op x y n nnn : Nat)
    (hop : op &&& 0xF000 = 0xF000) :
    exec s r op x y n 0x0A nnn =
      if (keyScanAux s.keys s.V x 16).2 then { s with V := (keyScanAux s.keys s.V x 16).1 }
      else { s with V := (keyScanAux s.keys s.V x 16).1, PC := (s.PC + 65534) % 65536 } := by
  simp [exec, hop]

theorem exec_call (s : Chip8) (r op x y n nn nnn : Nat)
    (hop : op &&& 0xF000 = 0x2000) :
    exec s r op x y n nn nnn =
      { s with stack := upd s.stack s.sp s.PC, sp := (s.sp + 1) % 256, PC := nnn } := by
  simp [exec, hop]

theorem exec_ret (s : Chip8) (r x y n nn nnn : Nat) :
    exec s r 0x00EE x y n nn nnn =
      { s with sp := (s.sp + 255) % 256, PC := s.stack ((s.sp + 255) % 256) } := by
  have h0 : (0x00EE &&& 0xF000 : Nat) = 0x0000 := by decide
  simp [exec, h0]

/-- C5: executing `Fx0A` with no key pressed leaves `PC` at its value before
the step (the fetch does `PC += 2` and the handler undoes it with `PC -= 2`, so the
instruction re-executes) and leaves every register, in particular `Vx`,
unchanged; with at least one key pressed it stores the highest-indexed
pressed key (the scan runs 0 through 15 and the last match wins) into `Vx`
and leaves `PC` advanced by 2 past the instruction. -/
theorem C5_block_for_key (s : Chip8) (r x : Nat)
    (hPC : s.PC < 65536)
    (hcls : ((s.memory s.PC <<< 8) ||| s.memory (s.PC + 1)) &&& 0xF000 = 0xF000)
    (hnn : ((s.memory s.PC <<< 8) ||| s.memory (s.PC + 1)) &&& 0x00FF = 0x0A)
    (hx : ((((s.memory s.PC <<< 8) ||| s.memory (s.PC + 1)) &&& 0x0F00) >>> 8) = x) :
    ((∀ i, i < 16 → s.keys i = false) →
      (emulateCycle s r).PC = s.PC ∧ ∀ j, (emulateCycle s r).V j = s.V j) ∧
    (∀ k, k < 16 → s.keys k = true → (∀ j, k < j → j < 16 → s.keys j = false) →
      (emulateCycle s r).V x = k ∧ (emulateCycle s r).PC = (s.PC + 2) % 65536) := by
  rw [emulateCycle, hx, hnn, exec_fx0a _ _ _ _ _ _ _ hcls]
  dsimp only
  constructor
  · intro hnone
    rw [keyScanAux_none s.keys s.V x 16 hnone]
    simp only [Bool.false_eq_true, if_false]
    exact ⟨by omega, fun j => trivial⟩
  · intro k hk hkey hhigh
    rw [keyScanAux_high s.keys s.V x 16 k hk hkey hhigh]
    simp only [if_true]
    exact ⟨upd_same _ _ _, trivial⟩

/-- C5 witness: from `c5WitState` (next instruction `F50A`, only key 7
pressed), the step stores 7 into `V5` and advances `PC` by 2. -/
theorem C5_block_for_key_witness :
    (emulateCycle c5WitState 0).V 5 = 7 ∧
    (emulateCycle c5WitState 0).PC = (c5WitState.PC + 2) % 65536 :=
  (C5_block_for_key c5WitState 0 5 (by decide) (by decide) (by decide) (by decide)).2
    7 (by decide) (by decide)
    (fun j h7 _ => by
      show c5WitState.keys j = false
      have hne : j ≠ 7 := by omega
      simp [c5WitState, hne])

/-- C9: the call opcode `2nnn` writes the already-advanced `PC` into the
stack slot indexed exactly by the stack pointer, leaves every other slot
unchanged, then increments the pointer (mod 256) and jumps; the return
opcode `00EE` decrements the pointer with 8-bit wrap (`(sp + 255) % 256`)
and loads `PC` from that slot.  Neither operation carries any bounds guard:
the theorem holds for every `sp` whatsoever, the slot touched by a call is
`sp` itself (so a call at `sp = 16` writes only outside the 16 real slots,
`¬ sp < 16`), and a return at `sp = 0` reads slot 255, also outside the
16-entry stack. -/
theorem C9_stack_semantics (s : Chip8) (r : Nat) :
    ((((s.memory s.PC <<< 8) ||| s.memory (s.PC + 1)) &&& 0xF000 = 0x2000) →
      (emulateCycle s r).stack s.sp = (s.PC + 2) % 65536 ∧
      (∀ j, j ≠ s.sp → (emulateCycle s r).stack j = s.stack j) ∧
      (emulateCycle s r).sp = (s.sp + 1) % 256 ∧
      (emulateCycle s r).PC = ((s.memory s.PC <<< 8) ||| s.memory (s.PC + 1)) &&& 0x0FFF ∧
      (s.sp = 16 → ¬ s.sp < 16)) ∧
    ((((s.memory s.PC <<< 8) ||| s.memory (s.PC + 1)) = 0x00EE) →
      (emulateCycle s r).sp = (s.sp + 255) % 256 ∧
      (emulateCycle s r).PC = s.stack ((s.sp + 255) % 256) ∧
      (s.sp = 0 → (s.sp + 255) % 256 = 255 ∧ ¬ (255 : Nat) < 16)) := by
  constructor
  · intro hop
    rw [emulateCycle, exec_call _ _ _ _ _ _ _ _ hop]
    dsimp only
    refine ⟨upd_same _ _ _, ?_, rfl, rfl, ?_⟩
    · intro j hj
      exact upd_ne _ _ _ _ hj
    · intro h16
      omega
  · intro hop
    rw [emulateCycle, hop, exec_ret]
    dsimp only
    refine ⟨rfl, rfl, ?_⟩
    intro h0
    rw [h0]
    exact ⟨by decide, by decide⟩

/-- C9 witness: a concrete call (`2345` from `c9CallState`) pushes the
advanced `PC` into slot `sp`, and a concrete return (`00EE` from
`c9RetState` with `sp = 1`) pops `PC` from slot 0. -/
theorem C9_stack_semantics_witness :
    (emulateCycle c9CallState 0).stack c9CallState.sp = (c9CallState.PC + 2) % 65536 ∧
    (emulateCycle c9RetState 0).PC = c9RetState.stack ((c9RetState.sp + 255) % 256) :=
  ⟨((C9_stack_semantics c9CallState 0).1 (by decide)).1,
   ((C9_stack_semantics c9RetState 0).2 (by decide)).2.1⟩
